import Mathlib

/-!
Shallow embedding of xdg-screensaver-shim.c (Unrud/xdg-screensaver-shim).

The source is a single C file with two operations:
  * operationSuspend: inhibits the screen saver over D-Bus, watches an X
    window for destruction, multiplexes the wait against a signalfd of
    gated signals, and releases the inhibit cookie in
    operationSuspendFinish on every terminal path.
  * operationResume: scans /proc, and for each candidate pid runs
    checkAndResumeProcess, which matches the argument vector
    [anything, "suspend", windowId] and sends SIGTERM on a match.

External effects (syscalls, D-Bus calls, X calls) are modelled by explicit
environment values recording each call result; the control flow, the
index arithmetic over the /proc cmdline blob, and the C numeric parsing
(strtoul with base 0, atoi) are translated faithfully from the source.
Allocation failures of the small helper allocSprintf for constant format
strings are not modelled (they abort the operation in the source); the
fallible steps that the claims are about are all modelled.
-/

namespace XdgScreensaverShim

/-- The NUL byte, the separator of the /proc cmdline blob. -/
def nulChar : Char := '\x00'

/-- C isspace for the default locale, as used by strtoul while skipping
leading white space. -/
def isCSpace (c : Char) : Bool :=
  c = ' ' || c = '\t' || c = '\n' || c = '\x0b' || c = '\x0c' || c = '\r'

/-- Value of a character as a hexadecimal digit, if it is one. -/
def hexDigitVal? (c : Char) : Option Nat :=
  if '0' ≤ c ∧ c ≤ '9' then some (c.toNat - 48)
  else if 'a' ≤ c ∧ c ≤ 'f' then some (c.toNat - 87)
  else if 'A' ≤ c ∧ c ≤ 'F' then some (c.toNat - 55)
  else none

/-- Value of a character as a digit in the given base (8, 10 or 16 arise
from strtoul with base 0), if it is a valid digit of that base. -/
def digitValInBase (base : Nat) (c : Char) : Option Nat :=
  match hexDigitVal? c with
  | some d => if d < base then some d else none
  | none => none

/-- Consume the maximal run of digits of the given base, returning the
accumulated value (exactly, as a natural number) and the number of
characters consumed. Models the digit loop inside strtoul. -/
def parseDigits (base : Nat) : List Char → Nat → Nat × Nat
  | [], acc => (acc, 0)
  | c :: rest, acc =>
    match digitValInBase base c with
    | some d =>
      let p := parseDigits base rest (base * acc + d)
      (p.1, p.2 + 1)
    | none => (acc, 0)

/-- Optional sign in front of a strtoul subject sequence: returns
(negate, remaining characters, characters consumed by the sign). -/
def parseSign (s : List Char) : Bool × List Char × Nat :=
  match s with
  | c :: r =>
    if c = '-' then (true, r, 1)
    else if c = '+' then (false, r, 1)
    else (false, s, 0)
  | [] => (false, [], 0)

/-- Base detection and digit consumption of strtoul with base 0, after
white space and sign have been removed: a 0x/0X prefix followed by a hex
digit selects base 16, a leading 0 selects base 8, anything else base 10.
A 0x prefix not followed by a hex digit parses just the 0 (endptr then
points at the x, as in C). Returns (raw value, characters consumed). -/
def strtoul0Base0 (s : List Char) : Nat × Nat :=
  match s with
  | c0 :: c1 :: rest =>
    if c0 = '0' then
      if c1 = 'x' ∨ c1 = 'X' then
        match rest with
        | r :: _ =>
          if (digitValInBase 16 r).isSome then
            let p := parseDigits 16 rest 0
            (p.1, 2 + p.2)
          else (0, 1)
        | [] => (0, 1)
      else parseDigits 8 (c0 :: c1 :: rest) 0
    else parseDigits 10 s 0
  | _ => parseDigits 10 s 0

/-- ULONG_MAX on the LP64 targets the tool is built for. -/
def ULONG_MAX : Nat := 2 ^ 64 - 1

/-- Final value conversion of strtoul: values whose magnitude exceeds
ULONG_MAX are clamped to ULONG_MAX (ERANGE), and a leading minus sign
negates the value in unsigned long arithmetic. -/
def clampUL (v : Nat) (neg : Bool) : Nat :=
  if ULONG_MAX < v then ULONG_MAX
  else if neg then (2 ^ 64 - v) % 2 ^ 64
  else v

/-- Model of strtoul(s, &end, 0) on a NUL-free token: returns the parsed
value and the offset of end from the start of the token. If no
conversion is performed, the offset is 0 (endptr equals nptr in C). -/
def strtoul0 (s : List Char) : Nat × Nat :=
  let s1 := s.dropWhile isCSpace
  let ws := s.length - s1.length
  let sg := parseSign s1
  let p := strtoul0Base0 sg.2.1
  if p.2 = 0 then (0, 0) else (clampUL p.1 sg.1, ws + sg.2.2 + p.2)

/-- Model of atoi as used on /proc directory entry names (operationResume,
line 442). Overflow of int is not modelled; pid digit strings fit. -/
def atoiModel (s : List Char) : Int :=
  let s1 := s.dropWhile isCSpace
  let sg := parseSign s1
  let p := parseDigits 10 sg.2.1 0
  if sg.1 then -(p.1 : Int) else (p.1 : Int)

/-- Hex digit character of a value below 16, lowercase as printf %x. -/
def hexDigitChar (d : Nat) : Char :=
  Char.ofNat (if d < 10 then 48 + d else 87 + d)

/-- The %#lx rendering used for the window id inside the inhibit reason
(operationSuspend, line 211): 0 renders as "0", any other value as 0x
followed by the hex digits, most significant first, no leading zeros. -/
def formatHashLx (n : Nat) : List Char :=
  if n = 0 then ['0']
  else '0' :: 'x' :: ((Nat.digits 16 n).reverse.map hexDigitChar)

/-- The inhibit reason string built by operationSuspend, line 211:
"waiting for X window %#lx". -/
def inhibitReason (window : Nat) : List Char :=
  "waiting for X window ".toList ++ formatHashLx window

/-- The window-token test of checkAndResumeProcess, lines 392 to 396: the
token is nonempty, strtoul with base 0 consumes it entirely, and the
parsed value equals the target window id. -/
def ParsesAsWindow (window : Nat) (tok : List Char) : Prop :=
  tok ≠ [] ∧ (strtoul0 tok).2 = tok.length ∧ (strtoul0 tok).1 = window

instance (window : Nat) (tok : List Char) : Decidable (ParsesAsWindow window tok) := by
  unfold ParsesAsWindow; infer_instance

/-- A nonempty all-digit string, the shape of a decimal window id on the
command line. -/
def isDecimalNumeral (s : List Char) : Bool :=
  !s.isEmpty && s.all (fun c => c.isDigit)

/-! ## allocReadlink (lines 296 to 333) -/

/-- Result of the readlink syscall on a candidate path, as seen by
allocReadlink. -/
inductive ReadlinkSyscall
  | ok (target : List Char)
  | errAcces
  | errNoent
  | errOther
deriving DecidableEq

/-- Result of allocReadlink: fail models returnValue false, null models
returnValue true with a NULL link (the ignored access race), ok carries
the link text. -/
inductive ReadlinkOutcome
  | fail
  | null
  | ok (link : List Char)
deriving DecidableEq

/-- The " (deleted)" marker the kernel appends to the exe link of a
deleted executable; allocReadlink cuts it, lines 319 to 325. -/
def deletedSuffix : List Char := " (deleted)".toList

/-- Cut the " (deleted)" marker from the end of a link target if present. -/
def stripDeleted (l : List Char) : List Char :=
  if deletedSuffix.isSuffixOf l then l.take (l.length - deletedSuffix.length)
  else l

/-- Model of allocReadlink, lines 296 to 333: EACCES and ENOENT are
treated as a successful NULL result when ignoreAccesError is set,
any other readlink failure is a hard error, and a successful read has
the " (deleted)" marker cut from its end. -/
def allocReadlink (sys : ReadlinkSyscall) (ignoreAccesError : Bool) : ReadlinkOutcome :=
  match sys with
  | .ok target => .ok (stripDeleted target)
  | .errAcces => if ignoreAccesError then .null else .fail
  | .errNoent => if ignoreAccesError then .null else .fail
  | .errOther => .fail

/-! ## checkAndResumeProcess (lines 335 to 420) -/

/-- Result of opening and fully reading the cmdline blob of a candidate. -/
inductive OpenSyscall
  | ok (blob : List Char)
  | errAcces
  | errNoent
  | errOther
deriving DecidableEq

/-- Result of the kill syscall on a matched candidate. -/
inductive KillSyscall
  | ok
  | errPerm
  | errSrch
  | errOther
deriving DecidableEq

/-- The racy kernel-exposed metadata of one candidate pid. -/
structure CandidateEnv where
  exeReadlink : ReadlinkSyscall
  cmdlineOpen : OpenSyscall
  kill : KillSyscall
deriving DecidableEq

/-- Outcome of checkAndResumeProcess: its boolean return value, and
whether the kill call (SIGTERM delivery) was reached. -/
structure CheckResult where
  result : Bool
  sigtermSent : Bool
deriving DecidableEq

/-- The C string starting at offset i of the blob: the characters up to
the first NUL. Models strcmp and strlen on &cmdline[i]. -/
def cstrAt (blob : List Char) (i : Nat) : List Char :=
  (blob.drop i).takeWhile (fun c => c ≠ nulChar)

/-- The argument-vector decision of checkAndResumeProcess, lines 376 to
402, on a fully read cmdline blob: none models the hard "Invalid cmdline"
error (blob empty or not NUL-terminated), some false models a non-match
(cleanReturn true before the kill), some true means the kill is reached.
The index arithmetic mirrors the source: arg1Start and arg2Start are the
offsets of argv[1] and argv[2], and the final check requires argv[2] to
end exactly at the end of the blob (argc == 3). -/
def cmdlineMatches (window : Nat) (blob : List Char) : Option Bool :=
  if blob.length < 1 ∨ blob.getLast? ≠ some nulChar then none
  else
    let arg1Start := (cstrAt blob 0).length + 1
    if blob.length ≤ arg1Start ∨ cstrAt blob arg1Start ≠ "suspend".toList then some false
    else
      let arg2Start := arg1Start + (cstrAt blob arg1Start).length + 1
      if blob.length ≤ arg2Start then some false
      else
        let tok := cstrAt blob arg2Start
        if tok = [] ∨ (strtoul0 tok).2 ≠ tok.length ∨ (strtoul0 tok).1 ≠ window then some false
        else if arg2Start + tok.length + 1 ≠ blob.length then some false
        else some true

/-- Model of checkAndResumeProcess, lines 335 to 420. The selfExeLink
parameter is carried exactly as in the source, which never compares the
resolved exe link of the candidate against it: a readable exe link of any
content proceeds to the cmdline checks. EACCES and ENOENT on the exe link
or on opening cmdline are absorbed as a successful non-match; EPERM and
ESRCH on kill are absorbed likewise after the SIGTERM has been attempted. -/
def checkAndResumeProcess (pid : Int) (selfExeLink : List Char) (window : Nat)
    (env : CandidateEnv) : CheckResult :=
  match allocReadlink env.exeReadlink true with
  | .fail => ⟨false, false⟩
  | .null => ⟨true, false⟩
  | .ok _exeLink =>
    match env.cmdlineOpen with
    | .errAcces => ⟨true, false⟩
    | .errNoent => ⟨true, false⟩
    | .errOther => ⟨false, false⟩
    | .ok blob =>
      match cmdlineMatches window blob with
      | none => ⟨false, false⟩
      | some false => ⟨true, false⟩
      | some true =>
        match env.kill with
        | .ok => ⟨true, true⟩
        | .errPerm => ⟨true, true⟩
        | .errSrch => ⟨true, true⟩
        | .errOther => ⟨false, true⟩

/-! ## operationResume (lines 422 to 454) -/

/-- One /proc directory entry: its name and the candidate metadata read
for the pid derived from the name. -/
structure ResumeEntry where
  name : List Char
  cand : CandidateEnv
deriving DecidableEq

/-- Models the digit-filter loop of operationResume, lines 437 to 441:
for each character the body runs "if (!isdigit(c)) continue;", where the
continue statement binds to this innermost for loop, so every iteration
is a no-op and control always falls through to the matcher call. The fold
inspects each character and changes nothing. -/
def entryFilterFallsThrough (name : List Char) : Bool :=
  name.foldl (fun acc _c => acc) true

/-- The scan loop of operationResume, lines 436 to 447: every directory
entry that falls through the filter is converted with atoi and handed to
checkAndResumeProcess; a false return flips the accumulated result but
the loop continues. Returns the final boolean result and the trace of
pids on which the matcher was invoked. -/
def resumeScan (selfExe : List Char) (window : Nat) : List ResumeEntry → Bool × List Int
  | [] => (true, [])
  | e :: rest =>
    if entryFilterFallsThrough e.name then
      let pid := atoiModel e.name
      let r := checkAndResumeProcess pid selfExe window e.cand
      let p := resumeScan selfExe window rest
      (r.result && p.1, pid :: p.2)
    else resumeScan selfExe window rest

/-- External results of the setup of operationResume. -/
structure ResumeEnv where
  selfExeReadlink : ReadlinkSyscall
  procDirOpenOk : Bool
  entries : List ResumeEntry
deriving DecidableEq

/-- Model of operationResume, lines 422 to 454: resolve /proc/self/exe
(failures here are hard errors since ignoreAccesError is false), open
/proc, then run the scan loop. The null branch of the readlink outcome is
unreachable with ignoreAccesError false and maps to failure. -/
def operationResume (window : Nat) (env : ResumeEnv) : Bool × List Int :=
  match allocReadlink env.selfExeReadlink false with
  | .fail => (false, [])
  | .null => (false, [])
  | .ok selfExe =>
    if env.procDirOpenOk then resumeScan selfExe window env.entries
    else (false, [])

/-! ## operationSuspend (lines 168 to 294) and its cleanup (lines 82 to 166) -/

/-- Signal numbers on Linux. -/
def SIGHUP : Nat := 1
def SIGINT : Nat := 2
def SIGQUIT : Nat := 3
def SIGPIPE : Nat := 13
def SIGTERM : Nat := 15

/-- The EXIT_SIGNALS array of line 34, with its 0 sentinel. -/
def EXIT_SIGNALS : List Nat := [SIGHUP, SIGINT, SIGPIPE, SIGQUIT, SIGTERM, 0]

/-- The signals actually added to the blocked set: the array entries up
to the 0 sentinel (loop at line 177). -/
def gatedSignals : List Nat := EXIT_SIGNALS.takeWhile (fun s => s ≠ 0)

/-- An X event as far as the wait loop inspects it: a DestroyNotify with
its event window, or anything else. -/
inductive XEvent
  | destroyNotify (eventWindow : Nat)
  | other
deriving DecidableEq

/-- One iteration of the wait loop, as fed by the outside world: whether
an asynchronous X protocol error surfaces while handling events, the X
events pending at the start of the iteration, whether select succeeds,
whether the signal fd is ready, whether reading it succeeds, and the
signal number read. -/
structure LoopInput where
  xError : Bool
  pending : List XEvent
  selectOk : Bool
  signalReady : Bool
  readOk : Bool
  signo : Nat
deriving DecidableEq

/-- The event-draining loop of lines 265 to 272: events are consumed one
by one and the first DestroyNotify whose event window equals the target
window exits the operation with success. Returns whether such an event
was found. -/
def drainEvents (window : Nat) : List XEvent → Bool
  | [] => false
  | .destroyNotify w :: rest => if w = window then true else drainEvents window rest
  | .other :: rest => drainEvents window rest

/-- Outcome of one iteration of the wait loop. -/
inductive IterResult
  | finish (success : Bool)
  | xerror
  | again
deriving DecidableEq

/-- One iteration of the wait loop of lines 263 to 288: pending X events
are drained first (a destruction of the target window succeeds
immediately), only then does the iteration block in select; a ready
signal fd is read and the loop finishes with success exactly for SIGTERM;
otherwise the loop goes round again to drain new X events. -/
def suspendLoopIter (window : Nat) (inp : LoopInput) : IterResult :=
  if inp.xError then .xerror
  else if drainEvents window inp.pending then .finish true
  else if !inp.selectOk then .finish false
  else if inp.signalReady then
    if !inp.readOk then .finish false
    else .finish (decide (inp.signo = SIGTERM))
  else .again

/-- Terminal outcome of the wait loop over a (finite) environment trace. -/
inductive LoopOutcome
  | finished (success : Bool)
  | xErrorExit
  | blocked
deriving DecidableEq

/-- The wait loop: iterate over the environment trace until an iteration
finishes, the X error handler fires, or the trace is exhausted (the
process would still be blocked in select). -/
def suspendLoop (window : Nat) : List LoopInput → LoopOutcome
  | [] => .blocked
  | inp :: rest =>
    match suspendLoopIter window inp with
    | .finish b => .finished b
    | .xerror => .xErrorExit
    | .again => suspendLoop window rest

/-- External results of the un-inhibit step inside operationSuspendFinish. -/
structure FinishEnv where
  unInhibitMsgOk : Bool
  unInhibitAppendOk : Bool
  unInhibitCallOk : Bool
  unInhibitReplyEmpty : Bool
deriving DecidableEq

/-- Outcome of operationSuspendFinish: its boolean return value, the
number of times the un-inhibit release step was entered (the release of
the cookie in the sense of the InhibitSession contract), and the number
of UnInhibit D-Bus calls actually sent. -/
structure FinishResult where
  ok : Bool
  releaseCalls : Nat
  releaseSends : Nat
deriving DecidableEq

/-- Model of operationSuspendFinish, lines 82 to 150: when the cookie was
acquired (screenSaverInhibited), the un-inhibit step runs exactly once;
building the message or appending the cookie can fail before the D-Bus
call is sent, and a failed or malformed reply flips the return value but
the release was still performed once. Without a cookie the step is
skipped entirely. -/
def operationSuspendFinish (screenSaverInhibited : Bool) (env : FinishEnv) : FinishResult :=
  if !screenSaverInhibited then ⟨true, 0, 0⟩
  else if !env.unInhibitMsgOk then ⟨false, 1, 0⟩
  else if !env.unInhibitAppendOk then ⟨false, 1, 0⟩
  else if !env.unInhibitCallOk then ⟨false, 1, 1⟩
  else if !env.unInhibitReplyEmpty then ⟨false, 1, 1⟩
  else ⟨true, 1, 1⟩

/-- External results of every fallible step of operationSuspend, in
source order. -/
structure SuspendEnv where
  sigprocmaskOk : Bool
  signalfdOk : Bool
  dbusConnOk : Bool
  inhibitMsgOk : Bool
  appendProgOk : Bool
  reasonOk : Bool
  appendReasonOk : Bool
  inhibitCallOk : Bool
  replyFirstIsUint32 : Bool
  replyHasExtra : Bool
  xOpenOk : Bool
  xSyncError : Bool
  forkResult : Int
  loop : List LoopInput
  finishEnv : FinishEnv
deriving DecidableEq

/-- Observable outcome of one operationSuspend run of the process under
consideration: the exit code it ends with, the release counters of its
cleanup, whether its cleanup ran at all, whether the cookie had been
acquired, whether it took the fork parent path, and whether it is still
blocked in the wait loop. -/
structure SuspendResult where
  exitSuccess : Bool
  releaseCalls : Nat
  releaseSends : Nat
  cleanupRan : Bool
  cookieAcquired : Bool
  parentPath : Bool
  stillWaiting : Bool
deriving DecidableEq

/-- The cleanReturn path of operationSuspend, line 289: run
operationSuspendFinish and combine its result with the return value of
the wait. -/
def finishAndExit (env : SuspendEnv) (inhibited : Bool) (loopResult : Bool) : SuspendResult :=
  let f := operationSuspendFinish inhibited env.finishEnv
  { exitSuccess := loopResult && f.ok
    releaseCalls := f.releaseCalls
    releaseSends := f.releaseSends
    cleanupRan := true
    cookieAcquired := inhibited
    parentPath := false
    stillWaiting := false }

/-- The X error handler path of lines 152 to 166: the handler nulls the
display reference, runs operationSuspendFinish, and the process exits
with failure. -/
def xErrorHandlerExit (env : SuspendEnv) : SuspendResult :=
  let f := operationSuspendFinish true env.finishEnv
  { exitSuccess := false
    releaseCalls := f.releaseCalls
    releaseSends := f.releaseSends
    cleanupRan := true
    cookieAcquired := true
    parentPath := false
    stillWaiting := false }

/-- Model of operationSuspend, lines 168 to 294, following the source
order of its fallible steps: signal mask, signalfd, D-Bus connection,
Inhibit message construction and both string arguments, the Inhibit call
and its reply shape (the cookie is taken and screenSaverInhibited is set
after the first reply argument is checked, before the extra-argument
check), the X handlers and display, XSelectInput plus XSync (where an
invalid window surfaces through the error handler), the fork (any
nonzero return, including the negative failure return, takes the parent
path: exit(EXIT_SUCCESS) with no cleanup), and the wait loop. -/
def operationSuspend (window : Nat) (env : SuspendEnv) : SuspendResult :=
  if !env.sigprocmaskOk then finishAndExit env false false
  else if !env.signalfdOk then finishAndExit env false false
  else if !env.dbusConnOk then finishAndExit env false false
  else if !env.inhibitMsgOk then finishAndExit env false false
  else if !env.appendProgOk then finishAndExit env false false
  else if !env.reasonOk then finishAndExit env false false
  else if !env.appendReasonOk then finishAndExit env false false
  else if !env.inhibitCallOk then finishAndExit env false false
  else if !env.replyFirstIsUint32 then finishAndExit env false false
  else if env.replyHasExtra then finishAndExit env true false
  else if !env.xOpenOk then finishAndExit env true false
  else if env.xSyncError then xErrorHandlerExit env
  else if env.forkResult ≠ 0 then
    { exitSuccess := true
      releaseCalls := 0
      releaseSends := 0
      cleanupRan := false
      cookieAcquired := true
      parentPath := true
      stillWaiting := false }
  else
    match suspendLoop window env.loop with
    | .finished b => finishAndExit env true b
    | .xErrorExit => xErrorHandlerExit env
    | .blocked =>
      { exitSuccess := false
        releaseCalls := 0
        releaseSends := 0
        cleanupRan := false
        cookieAcquired := true
        parentPath := false
        stillWaiting := true }

/-- All steps before the fork succeed: the run reaches the fork point. -/
def reachesForkPoint (env : SuspendEnv) : Bool :=
  env.sigprocmaskOk && env.signalfdOk && env.dbusConnOk && env.inhibitMsgOk &&
  env.appendProgOk && env.reasonOk && env.appendReasonOk && env.inhibitCallOk &&
  env.replyFirstIsUint32 && !env.replyHasExtra && env.xOpenOk && !env.xSyncError

/-- A candidate whose exe link, or whose cmdline blob after a readable
exe link, vanished or is inaccessible between enumeration and read. -/
def racyCandidate (env : CandidateEnv) : Prop :=
  env.exeReadlink = .errAcces ∨ env.exeReadlink = .errNoent ∨
  (∃ l, env.exeReadlink = .ok l ∧
    (env.cmdlineOpen = .errAcces ∨ env.cmdlineOpen = .errNoent))

/-! ## Helper lemmas -/

lemma operationSuspendFinish_false (e : FinishEnv) :
    operationSuspendFinish false e = ⟨true, 0, 0⟩ := by
  unfold operationSuspendFinish
  simp

lemma operationSuspendFinish_true_releaseCalls (e : FinishEnv) :
    (operationSuspendFinish true e).releaseCalls = 1 := by
  unfold operationSuspendFinish
  simp only [Bool.not_true, Bool.false_eq_true, if_false]
  split
  · rfl
  · split
    · rfl
    · split
      · rfl
      · split <;> rfl

lemma operationSuspendFinish_releaseSends_le (i : Bool) (e : FinishEnv) :
    (operationSuspendFinish i e).releaseSends ≤ (operationSuspendFinish i e).releaseCalls := by
  unfold operationSuspendFinish
  cases i <;> simp
  split
  · simp
  · split
    · simp
    · split
      · simp
      · split <;> simp

lemma drainEvents_of_mem (window : Nat) (evs : List XEvent)
    (h : XEvent.destroyNotify window ∈ evs) : drainEvents window evs = true := by
  induction evs with
  | nil => simp at h
  | cons e rest ih =>
    cases e with
    | destroyNotify w =>
      by_cases hw : w = window
      · simp [drainEvents, hw]
      · have hm : XEvent.destroyNotify window ∈ rest := by
          rcases List.mem_cons.mp h with h1 | h2
          · exact absurd (XEvent.destroyNotify.inj h1.symm) hw
          · exact h2
        simp [drainEvents, hw, ih hm]
    | other =>
      have hm : XEvent.destroyNotify window ∈ rest := by
        rcases List.mem_cons.mp h with h1 | h2
        · exact absurd h1 (by simp)
        · exact h2
      simp [drainEvents, ih hm]

lemma entryFilterFallsThrough_eq_true (name : List Char) :
    entryFilterFallsThrough name = true := by
  unfold entryFilterFallsThrough
  induction name with
  | nil => rfl
  | cons c rest ih => simp [List.foldl, ih]

lemma resumeScan_snd (selfExe : List Char) (window : Nat) (entries : List ResumeEntry) :
    (resumeScan selfExe window entries).2 = entries.map (fun e => atoiModel e.name) := by
  induction entries with
  | nil => rfl
  | cons e rest ih =>
    simp [resumeScan, entryFilterFallsThrough_eq_true, ih]

lemma resumeScan_fst (selfExe : List Char) (window : Nat) (entries : List ResumeEntry) :
    (resumeScan selfExe window entries).1 =
      entries.all
        (fun e => (checkAndResumeProcess (atoiModel e.name) selfExe window e.cand).result) := by
  induction entries with
  | nil => rfl
  | cons e rest ih =>
    simp [resumeScan, entryFilterFallsThrough_eq_true, ih, List.all_cons]

lemma checkAndResumeProcess_racy (pid : Int) (selfExe : List Char) (window : Nat)
    (env : CandidateEnv) (h : racyCandidate env) :
    checkAndResumeProcess pid selfExe window env = ⟨true, false⟩ := by
  obtain ⟨er, co, k⟩ := env
  rcases h with h1 | h1 | ⟨l, hl, h2⟩
  · simp only at h1
    subst h1
    rfl
  · simp only at h1
    subst h1
    rfl
  · simp only at hl
    subst hl
    rcases h2 with h2 | h2 <;> (simp only at h2; subst h2; rfl)

lemma takeWhile_append_nul (a r : List Char) (ha : nulChar ∉ a) :
    (a ++ nulChar :: r).takeWhile (fun c => c ≠ nulChar) = a := by
  induction a with
  | nil => simp [List.takeWhile_cons]
  | cons c t ih =>
    have hc : c ≠ nulChar := fun h => ha (h ▸ List.mem_cons_self c t)
    have ht : nulChar ∉ t := fun hm => ha (List.mem_cons_of_mem c hm)
    rw [List.cons_append, List.takeWhile_cons, if_pos (by simp [hc])]
    exact congrArg (List.cons c) (ih ht)

lemma drop_append_cons_add (a : List Char) (x : Char) (r : List Char) (n : Nat) :
    (a ++ x :: r).drop (a.length + 1 + n) = r.drop n := by
  have h : a ++ x :: r = (a ++ [x]) ++ r := by simp
  have hl : a.length + 1 + n = (a ++ [x]).length + n := by simp
  rw [h, hl, List.drop_append]

lemma drop_append_cons (a : List Char) (x : Char) (r : List Char) :
    (a ++ x :: r).drop (a.length + 1) = r := by
  have h := drop_append_cons_add a x r 0
  simpa using h

lemma getLast?_cons_of_ne_nil (c : Char) (l : List Char) (hl : l ≠ []) :
    (c :: l).getLast? = l.getLast? := by
  cases l with
  | nil => exact absurd rfl hl
  | cons b t => exact List.getLast?_cons_cons

lemma getLast?_append_cons (a : List Char) (x : Char) (r : List Char) (hr : r ≠ []) :
    (a ++ x :: r).getLast? = r.getLast? := by
  induction a with
  | nil => simpa using getLast?_cons_of_ne_nil x r hr
  | cons c t ih =>
    have hne : t ++ x :: r ≠ [] := by simp
    rw [List.cons_append, getLast?_cons_of_ne_nil c _ hne, ih]

/-- A list ending in NUL splits as its NUL-free head, the first NUL and
the remaining tail. -/
lemma nul_decomp (blob : List Char) (h : blob.getLast? = some nulChar) :
    blob = blob.takeWhile (fun c => c ≠ nulChar) ++
      nulChar :: blob.drop ((blob.takeWhile (fun c => c ≠ nulChar)).length + 1) := by
  induction blob with
  | nil => simp at h
  | cons c rest ih =>
    by_cases hc : c = nulChar
    · subst hc
      simp [List.takeWhile_cons]
    · cases rest with
      | nil =>
        simp [List.getLast?] at h
        exact absurd h hc
      | cons b t =>
        rw [List.getLast?_cons_cons] at h
        have ihr := ih h
        have htw : (c :: b :: t).takeWhile (fun x => x ≠ nulChar) =
            c :: (b :: t).takeWhile (fun x => x ≠ nulChar) := by
          simp [List.takeWhile_cons, hc]
        rw [htw, List.cons_append, List.length_cons, List.drop_succ_cons]
        exact congrArg (List.cons c) ihr

lemma nul_not_mem_takeWhile (l : List Char) :
    nulChar ∉ l.takeWhile (fun c => c ≠ nulChar) := by
  intro hm
  have h := List.mem_takeWhile_imp hm
  simp at h

/-- The matcher reaches the kill exactly when the blob is the NUL-joined
rendering of exactly three arguments whose middle argument is the literal
suspend and whose last argument parses to the target window id. -/
lemma cmdlineMatches_some_true_iff (window : Nat) (blob : List Char) :
    cmdlineMatches window blob = some true ↔
    ∃ a t, nulChar ∉ a ∧ nulChar ∉ t ∧
      blob = a ++ nulChar :: ("suspend".toList ++ nulChar :: (t ++ [nulChar])) ∧
      ParsesAsWindow window t := by
  constructor
  · intro h
    simp only [cmdlineMatches, cstrAt, List.drop_zero] at h
    split at h
    next => simp at h
    next hc1 =>
    split at h
    next => simp at h
    next hc2 =>
    split at h
    next => simp at h
    next hc3 =>
    split at h
    next => simp at h
    next hc4 =>
    split at h
    next => simp at h
    next hc5 =>
    clear h
    push_neg at hc1 hc2 hc3 hc4 hc5
    obtain ⟨hlen1, hlast⟩ := hc1
    have hblob := nul_decomp blob hlast
    obtain ⟨A, hA⟩ : ∃ x, blob.takeWhile (fun c => c ≠ nulChar) = x := ⟨_, rfl⟩
    rw [hA] at hblob hc2 hc3 hc4 hc5
    obtain ⟨R1, hR1⟩ : ∃ x, blob.drop (A.length + 1) = x := ⟨_, rfl⟩
    rw [hR1] at hblob hc2 hc3 hc4 hc5
    obtain ⟨S, hS⟩ : ∃ x, R1.takeWhile (fun c => c ≠ nulChar) = x := ⟨_, rfl⟩
    rw [hS] at hc2 hc3 hc4 hc5
    obtain ⟨h2lt, hsus⟩ := hc2
    obtain ⟨R2, hR2⟩ : ∃ x, blob.drop (A.length + 1 + S.length + 1) = x := ⟨_, rfl⟩
    rw [hR2] at hc4 hc5
    obtain ⟨T, hT⟩ : ∃ x, R2.takeWhile (fun c => c ≠ nulChar) = x := ⟨_, rfl⟩
    rw [hT] at hc4 hc5
    have hblen : blob.length = A.length + 1 + R1.length := by
      have h := congrArg List.length hblob
      simp only [List.length_append, List.length_cons] at h
      omega
    have hR1ne : R1 ≠ [] := by
      have hpos : 0 < R1.length := by omega
      exact List.length_pos.mp hpos
    have hlastR1 : R1.getLast? = some nulChar := by
      have h := hlast
      rw [hblob, getLast?_append_cons A nulChar R1 hR1ne] at h
      exact h
    have hdecomp1 := nul_decomp R1 hlastR1
    rw [hS] at hdecomp1
    have hR2' : R2 = R1.drop (S.length + 1) := by
      rw [← hR2, hblob]
      rw [(by omega : A.length + 1 + S.length + 1 = A.length + 1 + (S.length + 1))]
      exact drop_append_cons_add A nulChar R1 (S.length + 1)
    rw [← hR2'] at hdecomp1
    have hR1len : R1.length = S.length + 1 + R2.length := by
      have h := congrArg List.length hdecomp1
      simp only [List.length_append, List.length_cons] at h
      omega
    have hR2ne : R2 ≠ [] := by
      have hpos : 0 < R2.length := by omega
      exact List.length_pos.mp hpos
    have hlastR2 : R2.getLast? = some nulChar := by
      have h := hlastR1
      rw [hdecomp1, getLast?_append_cons S nulChar R2 hR2ne] at h
      exact h
    have hdecomp2 := nul_decomp R2 hlastR2
    rw [hT] at hdecomp2
    have hR2len : R2.length = T.length + 1 + (R2.drop (T.length + 1)).length := by
      have h := congrArg List.length hdecomp2
      simp only [List.length_append, List.length_cons] at h
      omega
    have hR3nil : R2.drop (T.length + 1) = [] := by
      have hlen0 : (R2.drop (T.length + 1)).length = 0 := by omega
      exact List.length_eq_zero.mp hlen0
    rw [hR3nil] at hdecomp2
    refine ⟨A, T, ?_, ?_, ?_, ⟨hc4.1, hc4.2.1, hc4.2.2⟩⟩
    · rw [← hA]
      exact nul_not_mem_takeWhile blob
    · rw [← hT]
      exact nul_not_mem_takeWhile R2
    · rw [hblob, hdecomp1, hsus, hdecomp2]
  · rintro ⟨a, t, hna, hnt, hshape, hpw⟩
    have hns : nulChar ∉ "suspend".toList := by decide
    have h1 : blob.takeWhile (fun c => c ≠ nulChar) = a := by
      rw [hshape]
      exact takeWhile_append_nul a _ hna
    have h2 : blob.drop (a.length + 1) = "suspend".toList ++ nulChar :: (t ++ [nulChar]) := by
      rw [hshape]
      exact drop_append_cons a nulChar _
    have h3 : (blob.drop (a.length + 1)).takeWhile (fun c => c ≠ nulChar) =
        "suspend".toList := by
      rw [h2]
      exact takeWhile_append_nul _ _ hns
    have h4 : blob.drop (a.length + 1 + "suspend".toList.length + 1) = t ++ [nulChar] := by
      rw [hshape]
      rw [(by omega :
        a.length + 1 + "suspend".toList.length + 1 =
          a.length + 1 + ("suspend".toList.length + 1))]
      rw [drop_append_cons_add a nulChar _ ("suspend".toList.length + 1)]
      exact drop_append_cons _ nulChar _
    have h5 : (blob.drop (a.length + 1 + "suspend".toList.length + 1)).takeWhile
        (fun c => c ≠ nulChar) = t := by
      rw [h4]
      exact takeWhile_append_nul t [] hnt
    have hlastb : blob.getLast? = some nulChar := by
      rw [hshape]
      rw [getLast?_append_cons a nulChar _ (by simp)]
      rw [getLast?_append_cons "suspend".toList nulChar _ (by simp)]
      exact List.getLast?_concat _
    have hblen : blob.length =
        a.length + 1 + "suspend".toList.length + 1 + t.length + 1 := by
      rw [hshape]
      simp only [List.length_append, List.length_cons, List.length_nil]
      omega
    obtain ⟨htne, hn2, hv⟩ := hpw
    simp only [cmdlineMatches, cstrAt, List.drop_zero]
    simp only [h1, h3, h5]
    rw [if_neg (by
      rintro (h | h)
      · omega
      · exact h hlastb)]
    rw [if_neg (by
      rintro (h | h)
      · omega
      · exact h rfl)]
    rw [if_neg (by omega)]
    rw [if_neg (by
      rintro (h | h | h)
      · exact htne h
      · exact h hn2
      · exact h hv)]
    rw [if_neg (by omega)]

/-- The kill call of checkAndResumeProcess is reached exactly when the
cmdline decision reaches its success leaf, for a candidate with readable
exe link and cmdline. -/
lemma checkAndResumeProcess_sigterm_iff (pid : Int) (selfExe link blob : List Char)
    (window : Nat) (k : KillSyscall) :
    (checkAndResumeProcess pid selfExe window ⟨.ok link, .ok blob, k⟩).sigtermSent = true ↔
    cmdlineMatches window blob = some true := by
  cases hm : cmdlineMatches window blob with
  | none => simp [checkAndResumeProcess, allocReadlink, hm]
  | some b =>
    cases b with
    | false => simp [checkAndResumeProcess, allocReadlink, hm]
    | true => cases k <;> simp [checkAndResumeProcess, allocReadlink, hm]

/-- Every run of operationSuspend ends in one of five shapes: a cleanup
without cookie, a cleanup with cookie, the X error handler path, the
fork parent path, or still blocked in the wait. -/
lemma operationSuspend_shape (window : Nat) (env : SuspendEnv) :
    (∃ b, operationSuspend window env = finishAndExit env false b) ∨
    (∃ b, operationSuspend window env = finishAndExit env true b) ∨
    operationSuspend window env = xErrorHandlerExit env ∨
    operationSuspend window env =
      { exitSuccess := true, releaseCalls := 0, releaseSends := 0,
        cleanupRan := false, cookieAcquired := true, parentPath := true,
        stillWaiting := false } ∨
    operationSuspend window env =
      { exitSuccess := false, releaseCalls := 0, releaseSends := 0,
        cleanupRan := false, cookieAcquired := true, parentPath := false,
        stillWaiting := true } := by
  cases h1 : env.sigprocmaskOk with
  | false => exact Or.inl ⟨false, by simp [operationSuspend, h1]⟩
  | true =>
  cases h2 : env.signalfdOk with
  | false => exact Or.inl ⟨false, by simp [operationSuspend, h1, h2]⟩
  | true =>
  cases h3 : env.dbusConnOk with
  | false => exact Or.inl ⟨false, by simp [operationSuspend, h1, h2, h3]⟩
  | true =>
  cases h4 : env.inhibitMsgOk with
  | false => exact Or.inl ⟨false, by simp [operationSuspend, h1, h2, h3, h4]⟩
  | true =>
  cases h5 : env.appendProgOk with
  | false => exact Or.inl ⟨false, by simp [operationSuspend, h1, h2, h3, h4, h5]⟩
  | true =>
  cases h6 : env.reasonOk with
  | false => exact Or.inl ⟨false, by simp [operationSuspend, h1, h2, h3, h4, h5, h6]⟩
  | true =>
  cases h7 : env.appendReasonOk with
  | false => exact Or.inl ⟨false, by simp [operationSuspend, h1, h2, h3, h4, h5, h6, h7]⟩
  | true =>
  cases h8 : env.inhibitCallOk with
  | false => exact Or.inl ⟨false, by simp [operationSuspend, h1, h2, h3, h4, h5, h6, h7, h8]⟩
  | true =>
  cases h9 : env.replyFirstIsUint32 with
  | false =>
    exact Or.inl ⟨false, by simp [operationSuspend, h1, h2, h3, h4, h5, h6, h7, h8, h9]⟩
  | true =>
  cases h10 : env.replyHasExtra with
  | true =>
    exact Or.inr (Or.inl ⟨false,
      by simp [operationSuspend, h1, h2, h3, h4, h5, h6, h7, h8, h9, h10]⟩)
  | false =>
  cases h11 : env.xOpenOk with
  | false =>
    exact Or.inr (Or.inl ⟨false,
      by simp [operationSuspend, h1, h2, h3, h4, h5, h6, h7, h8, h9, h10, h11]⟩)
  | true =>
  cases h12 : env.xSyncError with
  | true =>
    exact Or.inr (Or.inr (Or.inl
      (by simp [operationSuspend, h1, h2, h3, h4, h5, h6, h7, h8, h9, h10, h11, h12])))
  | false =>
  by_cases hf : env.forkResult = 0
  case neg =>
    exact Or.inr (Or.inr (Or.inr (Or.inl
      (by simp [operationSuspend, h1, h2, h3, h4, h5, h6, h7, h8, h9, h10, h11, h12, hf]))))
  case pos =>
  cases hl : suspendLoop window env.loop with
  | finished b =>
    exact Or.inr (Or.inl ⟨b,
      by simp [operationSuspend, h1, h2, h3, h4, h5, h6, h7, h8, h9, h10, h11, h12, hf, hl]⟩)
  | xErrorExit =>
    exact Or.inr (Or.inr (Or.inl
      (by simp [operationSuspend, h1, h2, h3, h4, h5, h6, h7, h8, h9, h10, h11, h12, hf, hl])))
  | blocked =>
    exact Or.inr (Or.inr (Or.inr (Or.inr
      (by simp [operationSuspend, h1, h2, h3, h4, h5, h6, h7, h8, h9, h10, h11, h12, hf, hl]))))

/-! ## Claim theorems -/

/-- C1 counterexample: a candidate whose executable link differs from the
resume invocation's own executable, but whose argument vector is
[anything, "suspend", "291"], is sent SIGTERM for window 291 — the claim
says a differing executable is never terminated, yet the source never
compares the two links. -/
theorem c1_counterexample_differing_executable :
    ("/usr/bin/other".toList ≠ "/usr/bin/xdg-screensaver-shim".toList) ∧
    (checkAndResumeProcess 1234 "/usr/bin/xdg-screensaver-shim".toList 291
      ⟨.ok "/usr/bin/other".toList,
       .ok "other\x00suspend\x00291\x00".toList, .ok⟩).sigtermSent = true := by
  decide

/-- C1 amended: the matcher requests termination exactly when the exe
link of the candidate is readable (its content is never compared with
the own executable of the resume invocation), the cmdline blob is
readable and consists of exactly three NUL-terminated arguments whose
second is literally suspend and whose third parses by strtoul base 0,
fully consumed, to the target window id; and the kill is only ever
reached with readable exe link and cmdline. -/
theorem c1_kill_iff_argv_shape :
    (∀ (pid : Int) (selfExe link blob : List Char) (window : Nat) (k : KillSyscall),
      (checkAndResumeProcess pid selfExe window ⟨.ok link, .ok blob, k⟩).sigtermSent = true ↔
      ∃ a t, nulChar ∉ a ∧ nulChar ∉ t ∧
        blob = a ++ nulChar :: ("suspend".toList ++ nulChar :: (t ++ [nulChar])) ∧
        ParsesAsWindow window t) ∧
    (∀ (pid : Int) (selfExe : List Char) (window : Nat) (env : CandidateEnv),
      (checkAndResumeProcess pid selfExe window env).sigtermSent = true →
      ∃ link blob, env.exeReadlink = .ok link ∧ env.cmdlineOpen = .ok blob) := by
  constructor
  · intro pid selfExe link blob window k
    rw [checkAndResumeProcess_sigterm_iff]
    exact cmdlineMatches_some_true_iff window blob
  · intro pid selfExe window env h
    obtain ⟨er, co, k⟩ := env
    cases er with
    | ok link =>
      cases co with
      | ok blob => exact ⟨link, blob, rfl, rfl⟩
      | errAcces => simp [checkAndResumeProcess, allocReadlink] at h
      | errNoent => simp [checkAndResumeProcess, allocReadlink] at h
      | errOther => simp [checkAndResumeProcess, allocReadlink] at h
    | errAcces => simp [checkAndResumeProcess, allocReadlink] at h
    | errNoent => simp [checkAndResumeProcess, allocReadlink] at h
    | errOther => simp [checkAndResumeProcess, allocReadlink] at h

/-- C1 amended witness: a three-argument vector with matching window id
built from the shape of the amended claim reaches the kill. -/
theorem c1_kill_iff_argv_shape_witness :
    (checkAndResumeProcess 1234 "/self".toList 291
      ⟨.ok "/other".toList,
       .ok ("other".toList ++ nulChar ::
         ("suspend".toList ++ nulChar :: ("291".toList ++ [nulChar]))), .ok⟩).sigtermSent
      = true :=
  (c1_kill_iff_argv_shape.1 1234 "/self".toList "/other".toList _ 291 .ok).mpr
    ⟨"other".toList, "291".toList, by decide, by decide, rfl, by decide⟩

/-- C2: in every suspend run, the un-inhibit D-Bus call is sent at most
once and the release step of the cleanup is entered at most once; a run
whose own cleanup executes after the cookie was acquired enters the
release step exactly once; a run that never acquired the cookie performs
zero release steps and sends zero un-inhibit calls. -/
theorem c2_release_discipline (window : Nat) (env : SuspendEnv) :
    (operationSuspend window env).releaseSends ≤ (operationSuspend window env).releaseCalls ∧
    (operationSuspend window env).releaseCalls ≤ 1 ∧
    ((operationSuspend window env).cookieAcquired = true →
      (operationSuspend window env).cleanupRan = true →
      (operationSuspend window env).releaseCalls = 1) ∧
    ((operationSuspend window env).cookieAcquired = false →
      (operationSuspend window env).releaseCalls = 0 ∧
      (operationSuspend window env).releaseSends = 0) := by
  have hs : (operationSuspendFinish true env.finishEnv).releaseSends ≤ 1 := by
    have h := operationSuspendFinish_releaseSends_le true env.finishEnv
    rw [operationSuspendFinish_true_releaseCalls] at h
    exact h
  rcases operationSuspend_shape window env with ⟨b, h⟩ | ⟨b, h⟩ | h | h | h <;>
    rw [h] <;>
    simp [finishAndExit, xErrorHandlerExit, operationSuspendFinish_false,
      operationSuspendFinish_true_releaseCalls, hs]

/-- C2 witness: a run with all steps successful whose window is
destroyed in the first loop iteration releases exactly once. -/
theorem c2_release_discipline_witness :
    (operationSuspend 7
      { sigprocmaskOk := true, signalfdOk := true, dbusConnOk := true,
        inhibitMsgOk := true, appendProgOk := true, reasonOk := true,
        appendReasonOk := true, inhibitCallOk := true, replyFirstIsUint32 := true,
        replyHasExtra := false, xOpenOk := true, xSyncError := false,
        forkResult := 0,
        loop := [⟨false, [XEvent.destroyNotify 7], true, false, true, 0⟩],
        finishEnv := ⟨true, true, true, true⟩ }).releaseCalls = 1 :=
  (c2_release_discipline 7 _).2.2.1 (by decide) (by decide)

/-- C3: if a destruction event for the target window is pending and the
signal fd is ready in the same iteration, the drain that precedes the
blocking wait observes the destruction first: the iteration, and with it
the whole wait loop, finishes with success. -/
theorem c3_destruction_priority (window : Nat) (inp : LoopInput) (rest : List LoopInput)
    (hx : inp.xError = false) (hd : XEvent.destroyNotify window ∈ inp.pending)
    (hs : inp.signalReady = true) :
    suspendLoopIter window inp = .finish true ∧
    suspendLoop window (inp :: rest) = .finished true := by
  have h1 : suspendLoopIter window inp = .finish true := by
    unfold suspendLoopIter
    simp [hx, drainEvents_of_mem window _ hd]
  exact ⟨h1, by simp [suspendLoop, h1]⟩

/-- C3 witness: a pending destruction of window 7 racing a pending
SIGTERM is resolved in favor of the destruction. -/
theorem c3_destruction_priority_witness :
    suspendLoop 7 [⟨false, [XEvent.destroyNotify 7], true, true, true, SIGTERM⟩] =
      .finished true :=
  (c3_destruction_priority 7 ⟨false, [XEvent.destroyNotify 7], true, true, true, SIGTERM⟩
    [] rfl (by decide) rfl).2

/-- C4: the resume scan loop invokes the matcher on every entry of the
process-table listing, whatever the earlier results were, and its
accumulated result is true exactly when every invocation returned true
(so a scan with zero matches, where every candidate is a successful
non-match, returns success, and it returns failure exactly when at least
one invocation returned a hard error). -/
theorem c4_scan_never_stops_early (selfExe : List Char) (window : Nat)
    (entries : List ResumeEntry) :
    (resumeScan selfExe window entries).2 = entries.map (fun e => atoiModel e.name) ∧
    ((resumeScan selfExe window entries).1 = true ↔
      ∀ e ∈ entries,
        (checkAndResumeProcess (atoiModel e.name) selfExe window e.cand).result = true) := by
  refine ⟨resumeScan_snd selfExe window entries, ?_⟩
  rw [resumeScan_fst]
  simp [List.all_eq_true]

/-- C4 witness: a scan over one hard-error candidate and one vanished
candidate still visits both and fails overall. -/
theorem c4_scan_never_stops_early_witness :
    (resumeScan "/self".toList 291
      [⟨"17".toList, ⟨.errOther, .errNoent, .ok⟩⟩,
       ⟨"42".toList, ⟨.errNoent, .errNoent, .ok⟩⟩]).2 = [17, 42] :=
  (c4_scan_never_stops_early "/self".toList 291 _).1.trans (by decide)

/-- C5: a candidate whose exe link or cmdline blob is gone (ENOENT) or
inaccessible (EACCES) is a successful non-match: the matcher returns
result true without reaching the kill, and inserting such a candidate
anywhere in a scan leaves the overall scan result unchanged. -/
theorem c5_race_tolerance (pid : Int) (selfExe : List Char) (window : Nat)
    (env : CandidateEnv) (h : racyCandidate env) :
    checkAndResumeProcess pid selfExe window env = ⟨true, false⟩ ∧
    ∀ (name : List Char) (pre post : List ResumeEntry),
      (resumeScan selfExe window (pre ++ ⟨name, env⟩ :: post)).1 =
        (resumeScan selfExe window (pre ++ post)).1 := by
  refine ⟨checkAndResumeProcess_racy pid selfExe window env h, ?_⟩
  intro name pre post
  have hr := checkAndResumeProcess_racy (atoiModel name) selfExe window env h
  simp [resumeScan_fst, List.all_append, List.all_cons, hr]

/-- C5 witness: a vanished candidate yields a successful non-match and
does not change the result of a scan it is inserted into. -/
theorem c5_race_tolerance_witness :
    checkAndResumeProcess 99 "/self".toList 291
      ⟨.errNoent, .errNoent, .ok⟩ = ⟨true, false⟩ :=
  (c5_race_tolerance 99 "/self".toList 291 ⟨.errNoent, .errNoent, .ok⟩
    (Or.inr (Or.inl rfl))).1

/-- C6: when the wait loop consumes a delivered gated signal (no pending
destruction event, select succeeded, the signal fd was ready and read),
the iteration finishes with success exactly when the signal is SIGTERM,
and with failure for every other gated signal. -/
theorem c6_signal_decides_outcome (window : Nat) (inp : LoopInput)
    (hx : inp.xError = false) (hd : drainEvents window inp.pending = false)
    (hsel : inp.selectOk = true) (hr : inp.signalReady = true) (hread : inp.readOk = true)
    (hg : inp.signo ∈ gatedSignals) :
    suspendLoopIter window inp = .finish (decide (inp.signo = SIGTERM)) := by
  unfold suspendLoopIter
  simp [hx, hd, hsel, hr, hread]

/-- C6 witness: a delivered SIGHUP finishes the wait with failure. -/
theorem c6_signal_decides_outcome_witness :
    suspendLoopIter 7 ⟨false, [], true, true, true, SIGHUP⟩ = .finish false := by
  have h := c6_signal_decides_outcome 7 ⟨false, [], true, true, true, SIGHUP⟩
    rfl rfl rfl rfl rfl (by decide)
  simpa using h

/-- C7: the digit filter of the /proc listing loop is ineffective (its
continue statement targets the filter loop itself), so a directory entry
with non-digit characters such as "self" still reaches the matcher, as
pid atoi("self") = 0 — contradicting the claim that non-numeric entries
are never handed to the matcher. -/
theorem c7_nonnumeric_entry_reaches_matcher :
    ("self".toList.any (fun c => !c.isDigit)) = true ∧
    entryFilterFallsThrough "self".toList = true ∧
    (resumeScan "/usr/bin/xdg-screensaver-shim".toList 291
      [⟨"self".toList, ⟨.errNoent, .errNoent, .ok⟩⟩]).2 = [0] ∧
    atoiModel "self".toList = 0 := by decide

lemma digitValInBase16_hexDigitChar (d : Nat) (h : d < 16) :
    digitValInBase 16 (hexDigitChar d) = some d := by
  interval_cases d <;> decide

lemma parseDigits_map_hexDigitChar (es : List Nat) (h : ∀ e ∈ es, e < 16) (acc : Nat) :
    parseDigits 16 (es.map hexDigitChar) acc =
      (es.foldl (fun a e => 16 * a + e) acc, es.length) := by
  induction es generalizing acc with
  | nil => rfl
  | cons e t ih =>
    have he : e < 16 := h e (by simp)
    have ht : ∀ x ∈ t, x < 16 := fun x hx => h x (by simp [hx])
    simp [parseDigits, digitValInBase16_hexDigitChar e he, ih ht, List.foldl]

lemma foldl_mul_add (b : Nat) (es : List Nat) (a : Nat) :
    es.foldl (fun x e => b * x + e) a = a * b ^ es.length + Nat.ofDigits b es.reverse := by
  induction es generalizing a with
  | nil => simp [Nat.ofDigits_nil]
  | cons e t ih =>
    rw [List.foldl_cons, ih (b * a + e), List.reverse_cons, Nat.ofDigits_append]
    simp [Nat.ofDigits_cons, Nat.ofDigits_nil, List.length_cons]
    ring

lemma clampUL_lt (v : Nat) (neg : Bool) : clampUL v neg < 2 ^ 64 := by
  have h2 : (2 : Nat) ^ 64 = 18446744073709551616 := by norm_num
  have hm : ULONG_MAX = 2 ^ 64 - 1 := rfl
  unfold clampUL
  split
  · omega
  · split
    · exact Nat.mod_lt _ (by omega)
    · omega

lemma strtoul0_fst_lt (s : List Char) : (strtoul0 s).1 < 2 ^ 64 := by
  simp only [strtoul0]
  split
  · norm_num
  · exact clampUL_lt _ _

lemma strtoul0_formatHashLx (w : Nat) (hw : w < 2 ^ 64) :
    strtoul0 (formatHashLx w) = (w, (formatHashLx w).length) := by
  have h2 : (2 : Nat) ^ 64 = 18446744073709551616 := by norm_num
  by_cases h0 : w = 0
  · subst h0
    decide
  · have hnil : Nat.digits 16 w ≠ [] := Nat.digits_ne_nil_iff_ne_zero.mpr h0
    obtain ⟨d, dt, hds⟩ : ∃ d dt, (Nat.digits 16 w).reverse = d :: dt := by
      cases hr : (Nat.digits 16 w).reverse with
      | nil => exact absurd (by simpa using congrArg List.reverse hr) hnil
      | cons a l => exact ⟨a, l, rfl⟩
    have hlt : ∀ e ∈ (Nat.digits 16 w).reverse, e < 16 := by
      intro e he
      exact Nat.digits_lt_base (by norm_num) (List.mem_reverse.mp he)
    have hd16 : d < 16 := hlt d (by rw [hds]; exact List.mem_cons_self _ _)
    have hval : ((Nat.digits 16 w).reverse).foldl (fun a e => 16 * a + e) 0 = w := by
      rw [foldl_mul_add, List.reverse_reverse, Nat.ofDigits_digits]
      simp
    have hpd : parseDigits 16 (hexDigitChar d :: dt.map hexDigitChar) 0 = (w, dt.length + 1) := by
      have h := parseDigits_map_hexDigitChar ((Nat.digits 16 w).reverse) hlt 0
      rw [hds] at h hval
      simp only [List.map_cons] at h
      rw [h, hval]
      simp
    have hfmt : formatHashLx w = '0' :: 'x' :: hexDigitChar d :: dt.map hexDigitChar := by
      unfold formatHashLx
      rw [if_neg h0, hds]
      simp
    have hbase : strtoul0Base0 ('0' :: 'x' :: hexDigitChar d :: dt.map hexDigitChar)
        = (w, 2 + (dt.length + 1)) := by
      simp only [strtoul0Base0]
      rw [digitValInBase16_hexDigitChar d hd16]
      simp [hpd]
    have hdrop : List.dropWhile isCSpace ('0' :: 'x' :: hexDigitChar d :: dt.map hexDigitChar)
        = '0' :: 'x' :: hexDigitChar d :: dt.map hexDigitChar := rfl
    have hsign : parseSign ('0' :: 'x' :: hexDigitChar d :: dt.map hexDigitChar)
        = (false, '0' :: 'x' :: hexDigitChar d :: dt.map hexDigitChar, 0) := rfl
    have hclamp : clampUL w false = w := by
      unfold clampUL
      have hm : ULONG_MAX = 2 ^ 64 - 1 := rfl
      rw [if_neg (by omega)]
      rfl
    rw [hfmt]
    simp only [strtoul0, hdrop, hsign, hbase]
    rw [if_neg (by omega)]
    rw [hclamp]
    simp [List.length_map]
    omega

/-- C8: a window id obtained from strtoul (in particular from a decimal
numeral, which always yields a value below 2^64), rendered the way the
suspend operation renders the hex id of the inhibit reason (%#lx), is
fully consumed by the matcher's strtoul base-0 parse and yields the same
integer back. -/
theorem c8_roundtrip_identity (s : List Char) (h : isDecimalNumeral s = true) :
    ParsesAsWindow ((strtoul0 s).1) (formatHashLx ((strtoul0 s).1)) := by
  have hw := strtoul0_fst_lt s
  have hfmt := strtoul0_formatHashLx ((strtoul0 s).1) hw
  refine ⟨?_, ?_, ?_⟩
  · unfold formatHashLx
    split <;> simp
  · rw [hfmt]
  · rw [hfmt]

/-- C8 witness: the id parsed from "6699" renders as 0x1a2b and parses
back to 6699. -/
theorem c8_roundtrip_identity_witness :
    ParsesAsWindow ((strtoul0 "6699".toList).1) (formatHashLx ((strtoul0 "6699".toList).1)) :=
  c8_roundtrip_identity "6699".toList (by decide)

/-- C9: if fork fails (a negative return value) after all setup steps
succeeded, the parent branch is taken: the process exits immediately
with the success exit code, no cleanup runs, and the acquired cookie is
never released. -/
theorem c9_fork_failure_parent_exit (window : Nat) (env : SuspendEnv)
    (hreach : reachesForkPoint env = true) (hfork : env.forkResult < 0) :
    operationSuspend window env =
      { exitSuccess := true, releaseCalls := 0, releaseSends := 0,
        cleanupRan := false, cookieAcquired := true, parentPath := true,
        stillWaiting := false } := by
  unfold reachesForkPoint at hreach
  simp only [Bool.and_eq_true, Bool.not_eq_true'] at hreach
  obtain ⟨⟨⟨⟨⟨⟨⟨⟨⟨⟨⟨h1, h2⟩, h3⟩, h4⟩, h5⟩, h6⟩, h7⟩, h8⟩, h9⟩, h10⟩, h11⟩, h12⟩ := hreach
  have hf : env.forkResult ≠ 0 := by omega
  unfold operationSuspend
  simp [h1, h2, h3, h4, h5, h6, h7, h8, h9, h10, h11, h12, hf]

/-- C9 witness: a concrete run whose fork returns -1 exits successfully
from the parent path with zero releases and no cleanup. -/
theorem c9_fork_failure_parent_exit_witness :
    operationSuspend 7
      { sigprocmaskOk := true, signalfdOk := true, dbusConnOk := true,
        inhibitMsgOk := true, appendProgOk := true, reasonOk := true,
        appendReasonOk := true, inhibitCallOk := true, replyFirstIsUint32 := true,
        replyHasExtra := false, xOpenOk := true, xSyncError := false,
        forkResult := -1, loop := [], finishEnv := ⟨true, true, true, true⟩ } =
      { exitSuccess := true, releaseCalls := 0, releaseSends := 0,
        cleanupRan := false, cookieAcquired := true, parentPath := true,
        stillWaiting := false } :=
  c9_fork_failure_parent_exit 7 _ (by decide) (by decide)

/-- C10: a candidate whose cmdline blob opens but reads as zero bytes is
treated as a malformed cmdline: the matcher returns a hard error (result
false, no kill attempted), and any scan containing such a candidate
fails overall. -/
theorem c10_empty_cmdline_hard_error (pid : Int) (selfExe : List Char) (window : Nat)
    (link : List Char) (k : KillSyscall) :
    checkAndResumeProcess pid selfExe window ⟨.ok link, .ok [], k⟩ = ⟨false, false⟩ ∧
    ∀ (name : List Char) (pre post : List ResumeEntry),
      (resumeScan selfExe window (pre ++ ⟨name, ⟨.ok link, .ok [], k⟩⟩ :: post)).1 = false := by
  have h : ∀ p : Int,
      checkAndResumeProcess p selfExe window ⟨.ok link, .ok [], k⟩ = ⟨false, false⟩ := by
    intro p
    unfold checkAndResumeProcess allocReadlink
    simp [cmdlineMatches]
  refine ⟨h pid, ?_⟩
  intro name pre post
  simp [resumeScan_fst, List.all_append, List.all_cons, h (atoiModel name)]

/-- C10 witness: a zombie candidate (empty cmdline) makes a concrete
one-entry scan fail. -/
theorem c10_empty_cmdline_hard_error_witness :
    (resumeScan "/self".toList 291
      [⟨"12".toList, ⟨.ok "/x".toList, .ok [], .ok⟩⟩]).1 = false := by
  have h := (c10_empty_cmdline_hard_error 12 "/self".toList 291 "/x".toList .ok).2
    "12".toList [] []
  simpa using h

end XdgScreensaverShim
